import Mathlib

/-!
Verification of the transaction-lifecycle layer of the
`contract-deploy-tools` repository (`src/deploy_tools/transact.py`) and of
the CLI argument coercion (`src/deploy_tools/cli.py`).

The Python code is shallowly embedded: the mutable `transaction_options`
dictionary becomes a structure of optional fields, exceptions become
`Except`, the web3 node becomes a structure of response functions, and
every network interaction is recorded in an explicit trace of RPC calls so
that claims about "no network call before the error" and "a single nonce
query" become statements about the trace.
-/

namespace DeployTools

/-- Ethereum addresses, private keys and transaction hashes are opaque
identifiers for this layer; we embed them as naturals. -/
abbrev Address := Nat

abbrev PrivKey := Nat

abbrev TxHash := Nat

/-- The sparse `transaction_options` mapping of recognized fields
(`from`, `to`, `gas`, `gasPrice`, `nonce`, `value`); a `none` field is an
absent dictionary key. -/
structure TxOptions where
  from_ : Option Address := none
  to_ : Option Address := none
  gas : Option Nat := none
  gasPrice : Option Nat := none
  nonce : Option Nat := none
  value : Option Nat := none
deriving Repr, DecidableEq

/-- A transaction receipt as returned by the node: `status` is
`receipt.get("status", None)`. -/
structure Receipt where
  status : Option Nat := none
  transactionHash : TxHash := 0
deriving Repr, DecidableEq

/-- The exceptions raised by `transact.py` and by the Python runtime on
the embedded paths. -/
inductive Err where
  | valueError (msg : String)
  | transactionFailed
  | transactionsFailed (failed_tx_hashs : List TxHash)
  | indexError
deriving Repr, DecidableEq

/-- The result of `account.sign_transaction(transaction)`: we record which
address signed and the exact transaction that was passed to signing. -/
structure SignedTx where
  signerAddress : Address
  tx : TxOptions
deriving Repr, DecidableEq

/-- `Account.from_key` derives an account from a private key; the
derivation function itself is external cryptography and is passed in. -/
structure Account where
  address : Address
deriving Repr, DecidableEq

def Account.from_key (derive : PrivKey → Address) (k : PrivKey) : Account :=
  ⟨derive k⟩

def Account.sign_transaction (a : Account) (tx : TxOptions) : SignedTx :=
  ⟨a.address, tx⟩

/-- The network interactions made by `transact.py`, as recorded in the
trace. -/
inductive RpcCall where
  | getTransactionCount (addr : Address)
  | sendRawTransaction (signed : SignedTx)
  | sendTransaction (tx : TxOptions)
  | transactCall (tx : TxOptions)
deriving Repr, DecidableEq

/-- The node (`web3.eth`): responses to the queries the embedded code
makes.  `defaultAccount` is `none` when `web3.eth.defaultAccount` is
falsy (unset / empty). -/
structure Node where
  pendingTransactionCount : Address → Nat
  defaultAccount : Option Address
  accounts : List Address
  receiptFor : TxHash → Receipt
  hashOfRaw : SignedTx → TxHash
  hashOfTx : TxOptions → TxHash

/-- A bound function call (`contract.functions.foo(...)`): its
`buildTransaction` merge and its node-side `transact` submission. -/
structure FunctionCall where
  buildTransaction : TxOptions → TxOptions
  transactHash : TxOptions → TxHash

/-- `"from" in transaction_options and transaction_options["from"] != account.address`,
the conflict test shared by `send_transaction` and
`_build_and_sign_transaction`. -/
def conflicting_from (transaction_options : TxOptions) (addr : Address) : Bool :=
  match transaction_options.from_ with
  | some f => f ≠ addr
  | none => false

/-- `fill_nonce(web3, transaction_options)`: queries the pending
transaction count for the from-address exactly when `from` is present and
`nonce` is absent.  Returns the updated options together with the trace of
RPC calls made. -/
def fill_nonce (node : Node) (transaction_options : TxOptions) :
    TxOptions × List RpcCall :=
  match transaction_options.from_, transaction_options.nonce with
  | some addr, none =>
    ({ transaction_options with
        nonce := some (node.pendingTransactionCount addr) },
      [RpcCall.getTransactionCount addr])
  | _, _ => (transaction_options, [])

/-- `_set_from_address(web3, transaction_options)`: fills an absent `from`
with `web3.eth.defaultAccount or web3.eth.accounts[0]`; `accounts[0]` on
an empty account list is a Python `IndexError`. -/
def _set_from_address (node : Node) (transaction_options : TxOptions) :
    Except Err TxOptions :=
  match transaction_options.from_ with
  | some _ => .ok transaction_options
  | none =>
    match node.defaultAccount with
    | some a => .ok { transaction_options with from_ := some a }
    | none =>
      match node.accounts with
      | [] => .error .indexError
      | a :: _ => .ok { transaction_options with from_ := some a }

/-- `increase_transaction_options_nonce(transaction_options)`: increases
the nonce by 1 if present, otherwise does nothing. -/
def increase_transaction_options_nonce (transaction_options : TxOptions) :
    TxOptions :=
  match transaction_options.nonce with
  | some n => { transaction_options with nonce := some (n + 1) }
  | none => transaction_options

/-- `build_transaction_options(gas=..., gas_price=..., nonce=..., value=...)`:
builds the sparse options mapping from the user-supplied fields, omitting
the unset ones. -/
def build_transaction_options (gas gas_price nonce value : Option Nat) :
    TxOptions :=
  let transaction_options : TxOptions := {}
  let transaction_options :=
    if gas.isSome then { transaction_options with gas := gas }
    else transaction_options
  let transaction_options :=
    if gas_price.isSome then { transaction_options with gasPrice := gas_price }
    else transaction_options
  let transaction_options :=
    if nonce.isSome then { transaction_options with nonce := nonce }
    else transaction_options
  let transaction_options :=
    if value.isSome then { transaction_options with value := value }
    else transaction_options
  transaction_options

/-- `send_transaction(web3=…, transaction_options=…, private_key=…)`.
Returns the outcome (hash or exception), the final state of the mutable
`transaction_options` dictionary, and the trace of network calls.
`fillDefaults` stands for web3's external `fill_transaction_defaults`. -/
def send_transaction (derive : PrivKey → Address)
    (fillDefaults : TxOptions → TxOptions) (node : Node)
    (transaction_options : TxOptions) (private_key : Option PrivKey) :
    Except Err TxHash × TxOptions × List RpcCall :=
  match private_key with
  | some k =>
    let account := Account.from_key derive k
    if conflicting_from transaction_options account.address then
      (.error (.valueError
          "From can not be set in transaction_options if a private key is used"),
        transaction_options, [])
    else
      let transaction_options :=
        { transaction_options with from_ := some account.address }
      let (transaction_options, trace) := fill_nonce node transaction_options
      let transaction := fillDefaults transaction_options
      let signed_transaction := account.sign_transaction transaction
      let tx_hash := node.hashOfRaw signed_transaction
      (.ok tx_hash, transaction_options,
        trace ++ [RpcCall.sendRawTransaction signed_transaction])
  | none =>
    match _set_from_address node transaction_options with
    | .error e => (.error e, transaction_options, [])
    | .ok transaction_options =>
      (.ok (node.hashOfTx transaction_options), transaction_options,
        [RpcCall.sendTransaction transaction_options])

/-- `_build_and_sign_transaction(function_call, web3=…, transaction_options=…,
private_key=…)`.  Returns the signed transaction, the final state of the
caller's `transaction_options` dictionary (the only in-place mutation is
setting `from`), and the trace. -/
def _build_and_sign_transaction (derive : PrivKey → Address)
    (function_call : FunctionCall) (node : Node)
    (transaction_options : TxOptions) (private_key : PrivKey) :
    Except Err SignedTx × TxOptions × List RpcCall :=
  let account := Account.from_key derive private_key
  if conflicting_from transaction_options account.address then
    (.error (.valueError
        "From can not be set in transaction_options if a private key is used"),
      transaction_options, [])
  else
    let transaction_options :=
      { transaction_options with from_ := some account.address }
    let (transaction, trace) :=
      fill_nonce node (function_call.buildTransaction transaction_options)
    (.ok (account.sign_transaction transaction), transaction_options, trace)

/-- `send_function_call_transaction(function_call, web3=…,
transaction_options=…, private_key=…)`; a `none` options argument is the
Python `transaction_options = None` default, replaced by `{}`. -/
def send_function_call_transaction (derive : PrivKey → Address)
    (function_call : FunctionCall) (node : Node)
    (transaction_options : Option TxOptions) (private_key : Option PrivKey) :
    Except Err TxHash × TxOptions × List RpcCall :=
  let transaction_options := transaction_options.getD {}
  match private_key with
  | some k =>
    match _build_and_sign_transaction derive function_call node
        transaction_options k with
    | (.error e, opts, trace) => (.error e, opts, trace)
    | (.ok signed_transaction, opts, trace) =>
      (.ok (node.hashOfRaw signed_transaction), opts,
        trace ++ [RpcCall.sendRawTransaction signed_transaction])
  | none =>
    match _set_from_address node transaction_options with
    | .error e => (.error e, transaction_options, [])
    | .ok opts =>
      let (opts, trace) := fill_nonce node opts
      (.ok (function_call.transactHash opts), opts,
        trace ++ [RpcCall.transactCall opts])

/-- `wait_for_successful_transaction_receipt(web3, txid, timeout)`: fetch
the receipt and classify its status. -/
def wait_for_successful_transaction_receipt (node : Node) (txid : TxHash) :
    Except Err Receipt :=
  let receipt := node.receiptFor txid
  match receipt.status with
  | some 0 => .error .transactionFailed
  | some 1 => .ok receipt
  | status =>
    .error (.valueError
      ("Unexpected value for status in the transaction receipt: " ++
        toString status))

/-- The loop body of `wait_for_successful_transaction_receipts`:
`failed_tx_hashs` is the Python set, embedded as a duplicate-free list
grown by membership-tested insertion. -/
def collect_failed_tx_hashs (node : Node) :
    List TxHash → List TxHash → Except Err (List TxHash)
  | [], failed_tx_hashs => .ok failed_tx_hashs
  | tx_hash :: rest, failed_tx_hashs =>
    let receipt := node.receiptFor tx_hash
    match receipt.status with
    | some 0 =>
      collect_failed_tx_hashs node rest
        (if tx_hash ∈ failed_tx_hashs then failed_tx_hashs
         else failed_tx_hashs ++ [tx_hash])
    | some 1 => collect_failed_tx_hashs node rest failed_tx_hashs
    | status =>
      .error (.valueError
        ("Unexpected value for status in the transaction receipt: " ++
          toString status))

/-- `wait_for_successful_transaction_receipts(web3, tx_hashs, timeout)`:
waits for every receipt, collecting the failed hashes; raises
`TransactionsFailed` with the collected set when it is nonempty. -/
def wait_for_successful_transaction_receipts (node : Node)
    (tx_hashs : List TxHash) : Except Err Unit :=
  match collect_failed_tx_hashs node tx_hashs [] with
  | .error e => .error e
  | .ok failed_tx_hashs =>
    if failed_tx_hashs.length ≠ 0 then
      .error (.transactionsFailed failed_tx_hashs)
    else
      .ok ()

/-! ### CLI argument coercion (`cli.py`, `parse_arg_to_matching_type`)

The regular expressions of `parse_arg_to_matching_type` are embedded as
boolean full-string matchers (each pattern is anchored with `^` and `$` in
the source). -/

/-- `\d` on the ASCII range the ABI type grammar uses. -/
def is_ascii_digit (c : Char) : Bool :=
  48 ≤ c.toNat && c.toNat ≤ 57

/-- `\d{0,m}` anchored at the end of the string. -/
def all_digits_at_most (l : List Char) (m : Nat) : Bool :=
  decide (l.length ≤ m) && l.all is_ascii_digit

/-- Strips the given literal prefix from the characters, or fails. -/
def drop_prefix_chars : List Char → List Char → Option (List Char)
  | [], l => some l
  | _ :: _, [] => none
  | p :: ps, c :: cs => if c == p then drop_prefix_chars ps cs else none

/-- `^u?int(\d){0,3}$` over a character list. -/
def matches_int_chars (l : List Char) : Bool :=
  let l1 :=
    match drop_prefix_chars [ 'u'] l with
    | some rest => rest
    | none => l
  match drop_prefix_chars [ 'i', 'n', 't'] l1 with
  | some rest => all_digits_at_most rest 3
  | none => false

/-- `^u?int(\d){0,3}$` -/
def matches_int_pattern (type : String) : Bool :=
  matches_int_chars type.data

/-- `^u?int(\d){0,3}\[\]$` -/
def matches_int_array_pattern (type : String) : Bool :=
  match type.data.reverse with
  | ']' :: '[' :: rest => matches_int_chars rest.reverse
  | _ => false

/-- `^bool$` -/
def matches_bool_pattern (type : String) : Bool :=
  type == "bool"

/-- `^bool\[\]$` -/
def matches_bool_array_pattern (type : String) : Bool :=
  type == "bool[]"

/-- `^address$` -/
def matches_address_pattern (type : String) : Bool :=
  type == "address"

/-- `^address\[\]$` -/
def matches_address_array_pattern (type : String) : Bool :=
  type == "address[]"

/-- `^bytes\d{0,2}$` -/
def matches_bytes_pattern (type : String) : Bool :=
  match drop_prefix_chars [ 'b', 'y', 't', 'e', 's'] type.data with
  | some rest => all_digits_at_most rest 2
  | none => false

/-- `^string$` -/
def matches_string_pattern (type : String) : Bool :=
  type == "string"

/-- The heterogeneous Python values produced by the argument coercion. -/
inductive AbiValue where
  | intVal (i : Int)
  | intListVal (l : List Int)
  | boolVal (b : Bool)
  | boolListVal (l : List Bool)
  | addressVal (a : String)
  | addressListVal (l : List String)
  | strVal (s : String)
deriving Repr, DecidableEq

/-- The Python `int` builtin on its common decimal forms: an optional
sign followed by decimal digits; anything else is a `ValueError`
(whitespace stripping and underscore separators are not modelled). -/
def python_int (arg : String) : Except Err Int :=
  let core := if arg.startsWith "+" || arg.startsWith "-" then arg.drop 1 else arg
  if core.length > 0 && core.all Char.isDigit then
    let n : Int := core.toNat?.getD 0
    .ok (if arg.startsWith "-" then -n else n)
  else
    .error (.valueError ("invalid literal for int with base 10: " ++ arg))

/-- The `bool` branch of `parse_arg_to_matching_type`; the source reaches
it either directly (type `bool`) or through the recursive call
`parse_arg_to_matching_type(_arg, "bool")` of the `bool[]` branch, which
is inlined here so the recursion is structural. -/
def parse_bool_arg (arg : String) : Except Err Bool :=
  if arg.toLower == "true" then .ok true
  else if arg.toLower == "false" then .ok false
  else .error (.valueError ("Expected true or false, but got " ++ arg))

/-- `parse_arg_to_matching_type(arg, type)`: coerces one command-line
string to the Python value matching the ABI type.  `toChecksumAddress`
stands for the external `Web3.toChecksumAddress`. -/
def parse_arg_to_matching_type (toChecksumAddress : String → Except Err String)
    (arg : String) (type : String) : Except Err AbiValue :=
  if matches_int_pattern type then
    (python_int arg).map AbiValue.intVal
  else if matches_int_array_pattern type then
    ((arg.splitOn ",").mapM python_int).map AbiValue.intListVal
  else if matches_bool_pattern type then
    (parse_bool_arg arg).map AbiValue.boolVal
  else if matches_bool_array_pattern type then
    ((arg.splitOn ",").mapM parse_bool_arg).map AbiValue.boolListVal
  else if matches_address_pattern type then
    (toChecksumAddress arg).map AbiValue.addressVal
  else if matches_address_array_pattern type then
    ((arg.splitOn ",").mapM toChecksumAddress).map AbiValue.addressListVal
  else if matches_bytes_pattern type || matches_string_pattern type then
    .ok (AbiValue.strVal arg)
  else
    .error (.valueError ("Cannot handle parameter of type " ++ type ++ " yet."))

/-! ### Concrete instances used by the witnesses -/

/-- A concrete node: pending count 7 for every address, default account 5,
one unlocked account 6, every receipt succeeding with status 1. -/
def node0 : Node :=
  ⟨fun _ => 7, some 5, [6], fun h => ⟨some 1, h⟩, fun _ => 11, fun _ => 12⟩

/-- A concrete node whose receipts carry the out-of-protocol status 3. -/
def node3 : Node :=
  ⟨fun _ => 7, none, [6], fun h => ⟨some 3, h⟩, fun _ => 11, fun _ => 12⟩

/-- A concrete identity function call: `buildTransaction` merges nothing. -/
def fc0 : FunctionCall := ⟨fun t => t, fun _ => 21⟩

/-- A concrete node whose receipts fail (status 0) on even transaction
hashes and succeed (status 1) on odd ones. -/
def nodeMixed : Node :=
  ⟨fun _ => 7, some 5, [6],
    fun h => ⟨if h % 2 = 0 then some 0 else some 1, h⟩, fun _ => 11, fun _ => 12⟩

/-- The number of pending-count nonce queries recorded in a trace. -/
def nonce_query_count (trace : List RpcCall) : Nat :=
  trace.countP fun c =>
    match c with
    | RpcCall.getTransactionCount _ => true
    | _ => false

/-! ### Shared helper lemmas -/

/-- `fill_nonce` never changes the from-address. -/
theorem fill_nonce_fst_from (node : Node) (opts : TxOptions) :
    (fill_nonce node opts).1.from_ = opts.from_ := by
  unfold fill_nonce
  rcases h1 : opts.from_ with _ | a <;> rcases h2 : opts.nonce with _ | n <;>
    simp [h1, h2]

/-- An explicit nonce survives `fill_nonce`. -/
theorem fill_nonce_fst_nonce (node : Node) (opts : TxOptions) (n : Nat)
    (h : opts.nonce = some n) : (fill_nonce node opts).1.nonce = some n := by
  unfold fill_nonce
  rcases h1 : opts.from_ with _ | a <;> simp [h1, h]

/-- The only RPC call `fill_nonce` can make is a pending-count query. -/
theorem fill_nonce_trace_only_query (node : Node) (opts : TxOptions) :
    ∀ c ∈ (fill_nonce node opts).2, ∃ a, c = RpcCall.getTransactionCount a := by
  unfold fill_nonce
  rcases h1 : opts.from_ with _ | a <;> rcases h2 : opts.nonce with _ | n <;>
    simp [h1, h2]

/-- The number of pending-count queries `fill_nonce` makes: one exactly
when the from-address is present and the nonce absent. -/
theorem fill_nonce_query_count (node : Node) (opts : TxOptions) :
    nonce_query_count (fill_nonce node opts).2 =
      if opts.from_.isSome ∧ opts.nonce = none then 1 else 0 := by
  unfold fill_nonce nonce_query_count
  rcases h1 : opts.from_ with _ | a <;> rcases h2 : opts.nonce with _ | n <;>
    simp [h1, h2]

/-- `nonce_query_count` distributes over trace concatenation. -/
theorem nonce_query_count_append (t1 t2 : List RpcCall) :
    nonce_query_count (t1 ++ t2) = nonce_query_count t1 + nonce_query_count t2 :=
  List.countP_append _ _ _

/-- A raw-transaction submission is not a nonce query. -/
theorem nonce_query_count_sendRaw (s : SignedTx) :
    nonce_query_count [RpcCall.sendRawTransaction s] = 0 := rfl

/-- A function-call submission is not a nonce query. -/
theorem nonce_query_count_transactCall (t : TxOptions) :
    nonce_query_count [RpcCall.transactCall t] = 0 := rfl

/-- When `_set_from_address` succeeds, it only fills the from field: the
result has a present from-address and all other fields of the input. -/
theorem set_from_address_ok_shape (node : Node) (opts res : TxOptions)
    (h : _set_from_address node opts = .ok res) :
    res.from_.isSome ∧ res.to_ = opts.to_ ∧ res.gas = opts.gas ∧
      res.gasPrice = opts.gasPrice ∧ res.nonce = opts.nonce ∧
      res.value = opts.value := by
  unfold _set_from_address at h
  rcases h1 : opts.from_ with _ | f <;> rw [h1] at h
  · rcases h2 : node.defaultAccount with _ | a <;> rw [h2] at h
    · rcases h3 : node.accounts with _ | ⟨a, rest⟩ <;> rw [h3] at h
      · simp at h
      · injection h with h
        subst h
        simp
    · injection h with h
      subst h
      simp
  · injection h with h
    subst h
    simp [h1]

/-- `send_transaction` with a private key and a conflicting explicit
from-address: the error tuple, with untouched options and empty trace. -/
theorem send_transaction_key_conflict (derive : PrivKey → Address)
    (fd : TxOptions → TxOptions) (node : Node) (opts : TxOptions) (k : PrivKey)
    (hcf : conflicting_from opts (derive k) = true) :
    send_transaction derive fd node opts (some k) =
      (.error (.valueError
          "From can not be set in transaction_options if a private key is used"),
        opts, []) := by
  unfold send_transaction Account.from_key
  simp [hcf]

/-- The success path of `send_transaction` with a private key. -/
theorem send_transaction_key_ok (derive : PrivKey → Address)
    (fd : TxOptions → TxOptions) (node : Node) (opts : TxOptions) (k : PrivKey)
    (hcf : conflicting_from opts (derive k) = false) :
    send_transaction derive fd node opts (some k) =
      (.ok (node.hashOfRaw
          ⟨derive k, fd (fill_nonce node { opts with from_ := some (derive k) }).1⟩),
        (fill_nonce node { opts with from_ := some (derive k) }).1,
        (fill_nonce node { opts with from_ := some (derive k) }).2 ++
          [RpcCall.sendRawTransaction
            ⟨derive k, fd (fill_nonce node { opts with from_ := some (derive k) }).1⟩]) := by
  unfold send_transaction Account.from_key Account.sign_transaction
  rcases hfn : fill_nonce node { opts with from_ := some (derive k) } with ⟨o2, tr⟩
  simp [hcf, hfn]

/-- `_build_and_sign_transaction` with a conflicting explicit
from-address: the error tuple, with untouched options and empty trace. -/
theorem build_and_sign_conflict (derive : PrivKey → Address)
    (fc : FunctionCall) (node : Node) (opts : TxOptions) (k : PrivKey)
    (hcf : conflicting_from opts (derive k) = true) :
    _build_and_sign_transaction derive fc node opts k =
      (.error (.valueError
          "From can not be set in transaction_options if a private key is used"),
        opts, []) := by
  unfold _build_and_sign_transaction Account.from_key
  simp [hcf]

/-- The success path of `_build_and_sign_transaction`. -/
theorem build_and_sign_key_ok (derive : PrivKey → Address)
    (fc : FunctionCall) (node : Node) (opts : TxOptions) (k : PrivKey)
    (hcf : conflicting_from opts (derive k) = false) :
    _build_and_sign_transaction derive fc node opts k =
      (.ok ⟨derive k,
          (fill_nonce node
            (fc.buildTransaction { opts with from_ := some (derive k) })).1⟩,
        { opts with from_ := some (derive k) },
        (fill_nonce node
          (fc.buildTransaction { opts with from_ := some (derive k) })).2) := by
  unfold _build_and_sign_transaction Account.from_key Account.sign_transaction
  rcases hfn : fill_nonce node
      (fc.buildTransaction { opts with from_ := some (derive k) }) with ⟨o2, tr⟩
  simp [hcf, hfn]

/-- The success path of `send_function_call_transaction` with a private
key. -/
theorem send_function_call_key_ok (derive : PrivKey → Address)
    (fc : FunctionCall) (node : Node) (opts : TxOptions) (k : PrivKey)
    (hcf : conflicting_from opts (derive k) = false) :
    send_function_call_transaction derive fc node (some opts) (some k) =
      (.ok (node.hashOfRaw ⟨derive k,
          (fill_nonce node
            (fc.buildTransaction { opts with from_ := some (derive k) })).1⟩),
        { opts with from_ := some (derive k) },
        (fill_nonce node
          (fc.buildTransaction { opts with from_ := some (derive k) })).2 ++
          [RpcCall.sendRawTransaction ⟨derive k,
            (fill_nonce node
              (fc.buildTransaction { opts with from_ := some (derive k) })).1⟩]) := by
  have hstep : send_function_call_transaction derive fc node (some opts) (some k) =
      match _build_and_sign_transaction derive fc node opts k with
      | (.error e, o, tr) => (.error e, o, tr)
      | (.ok s, o, tr) =>
        (.ok (node.hashOfRaw s), o, tr ++ [RpcCall.sendRawTransaction s]) := rfl
  rw [hstep, build_and_sign_key_ok derive fc node opts k hcf]

/-- `send_function_call_transaction` with a private key and a conflicting
explicit from-address: the error tuple, with untouched options and empty
trace. -/
theorem send_function_call_key_conflict (derive : PrivKey → Address)
    (fc : FunctionCall) (node : Node) (opts : TxOptions) (k : PrivKey)
    (hcf : conflicting_from opts (derive k) = true) :
    send_function_call_transaction derive fc node (some opts) (some k) =
      (.error (.valueError
          "From can not be set in transaction_options if a private key is used"),
        opts, []) := by
  have hstep : send_function_call_transaction derive fc node (some opts) (some k) =
      match _build_and_sign_transaction derive fc node opts k with
      | (.error e, o, tr) => (.error e, o, tr)
      | (.ok s, o, tr) =>
        (.ok (node.hashOfRaw s), o, tr ++ [RpcCall.sendRawTransaction s]) := rfl
  rw [hstep, build_and_sign_conflict derive fc node opts k hcf]

/-- The node-signed path of `send_transaction`, as a case split on
`_set_from_address`. -/
theorem send_transaction_no_key (derive : PrivKey → Address)
    (fd : TxOptions → TxOptions) (node : Node) (opts : TxOptions) :
    send_transaction derive fd node opts none =
      match _set_from_address node opts with
      | .error e => (.error e, opts, [])
      | .ok res =>
        (.ok (node.hashOfTx res), res, [RpcCall.sendTransaction res]) := by
  unfold send_transaction
  rcases h : _set_from_address node opts with e | res <;> simp [h]

/-- The node-signed path of `send_function_call_transaction`, as a case
split on `_set_from_address`. -/
theorem send_function_call_no_key (derive : PrivKey → Address)
    (fc : FunctionCall) (node : Node) (opts : TxOptions) :
    send_function_call_transaction derive fc node (some opts) none =
      match _set_from_address node opts with
      | .error e => (.error e, opts, [])
      | .ok res =>
        (.ok (fc.transactHash (fill_nonce node res).1), (fill_nonce node res).1,
          (fill_nonce node res).2 ++
            [RpcCall.transactCall (fill_nonce node res).1]) := by
  unfold send_function_call_transaction
  rcases h : _set_from_address node opts with e | res
  · simp [h]
  · rcases hfn : fill_nonce node res with ⟨o2, tr⟩
    simp [h, hfn]

/-! ### Claim theorems -/

/-- C6: `build_transaction_options` returns the sparse mapping binding
exactly the keys `gas`, `gasPrice`, `nonce`, `value` whose inputs are not
None, each to the supplied value, with every None input's key (and the
`from`/`to` keys) absent. -/
theorem build_transaction_options_exact (gas gas_price nonce value : Option Nat) :
    build_transaction_options gas gas_price nonce value =
      { from_ := none, to_ := none, gas := gas, gasPrice := gas_price,
        nonce := nonce, value := value } := by
  unfold build_transaction_options
  rcases gas with _ | g <;> rcases gas_price with _ | gp <;>
    rcases nonce with _ | n <;> rcases value with _ | v <;> rfl

/-- C7: `fill_nonce` sets the nonce to the pending transaction count of
the from-address exactly when `from` is present and `nonce` absent;
otherwise it does nothing; every field other than the nonce is unchanged
and a present nonce is never overwritten. -/
theorem fill_nonce_spec (node : Node) (opts : TxOptions) :
    (∀ addr, opts.from_ = some addr → opts.nonce = none →
      fill_nonce node opts =
        ({ opts with nonce := some (node.pendingTransactionCount addr) },
          [RpcCall.getTransactionCount addr])) ∧
    (opts.from_ = none ∨ opts.nonce ≠ none → fill_nonce node opts = (opts, [])) ∧
    ((fill_nonce node opts).1.from_ = opts.from_ ∧
      (fill_nonce node opts).1.to_ = opts.to_ ∧
      (fill_nonce node opts).1.gas = opts.gas ∧
      (fill_nonce node opts).1.gasPrice = opts.gasPrice ∧
      (fill_nonce node opts).1.value = opts.value) ∧
    (∀ n, opts.nonce = some n → (fill_nonce node opts).1.nonce = some n) := by
  refine ⟨?_, ?_, ?_, ?_⟩
  · intro addr h1 h2
    unfold fill_nonce
    simp [h1, h2]
  · intro h
    unfold fill_nonce
    rcases h1 : opts.from_ with _ | a <;> rcases h2 : opts.nonce with _ | n <;>
      simp [h1, h2] <;> simp [h1, h2] at h
  · exact ⟨fill_nonce_fst_from node opts, by
      unfold fill_nonce
      rcases h1 : opts.from_ with _ | a <;> rcases h2 : opts.nonce with _ | n <;>
        simp [h1, h2]⟩
  · exact fun n h => fill_nonce_fst_nonce node opts n h

/-- C7 witness: on a concrete options record with from-address 3 and no
nonce, `fill_nonce` against `node0` fills the pending count 7 and makes
exactly one pending-count query. -/
theorem fill_nonce_spec_witness :
    fill_nonce node0 { from_ := some 3 } =
      ({ from_ := some 3, nonce := some 7 }, [RpcCall.getTransactionCount 3]) :=
  (fill_nonce_spec node0 { from_ := some 3 }).1 3 rfl rfl

/-- C10: `increase_transaction_options_nonce` adds one to a present nonce
and does nothing when the nonce is absent; every other field is unchanged
in both cases. -/
theorem increase_transaction_options_nonce_spec (opts : TxOptions) :
    (∀ n, opts.nonce = some n →
      increase_transaction_options_nonce opts = { opts with nonce := some (n + 1) }) ∧
    (opts.nonce = none → increase_transaction_options_nonce opts = opts) ∧
    ((increase_transaction_options_nonce opts).from_ = opts.from_ ∧
      (increase_transaction_options_nonce opts).to_ = opts.to_ ∧
      (increase_transaction_options_nonce opts).gas = opts.gas ∧
      (increase_transaction_options_nonce opts).gasPrice = opts.gasPrice ∧
      (increase_transaction_options_nonce opts).value = opts.value) := by
  unfold increase_transaction_options_nonce
  rcases h : opts.nonce with _ | n <;> simp [h]

/-- C10 witness: a concrete record with nonce 4 is bumped to 5. -/
theorem increase_transaction_options_nonce_spec_witness :
    increase_transaction_options_nonce { nonce := some 4, gas := some 9 } =
      { nonce := some 5, gas := some 9 } :=
  (increase_transaction_options_nonce_spec { nonce := some 4, gas := some 9 }).1 4 rfl

/-- C1: `wait_for_successful_transaction_receipt` returns the node's
receipt exactly when its status is 1, raises `TransactionFailed` exactly
when the status is 0, and raises a `ValueError` (never the success
result) for every other status, a missing one included. -/
theorem wait_for_successful_transaction_receipt_spec (node : Node) (txid : TxHash) :
    (wait_for_successful_transaction_receipt node txid = .ok (node.receiptFor txid) ↔
      (node.receiptFor txid).status = some 1) ∧
    (∀ r, wait_for_successful_transaction_receipt node txid = .ok r →
      r = node.receiptFor txid ∧ (node.receiptFor txid).status = some 1) ∧
    (wait_for_successful_transaction_receipt node txid = .error .transactionFailed ↔
      (node.receiptFor txid).status = some 0) ∧
    ((node.receiptFor txid).status ≠ some 0 → (node.receiptFor txid).status ≠ some 1 →
      wait_for_successful_transaction_receipt node txid =
        .error (.valueError
          ("Unexpected value for status in the transaction receipt: " ++
            toString (node.receiptFor txid).status))) := by
  unfold wait_for_successful_transaction_receipt
  rcases h : (node.receiptFor txid).status with _ | n
  · simp [h]
  · match n with
    | 0 => simp [h]
    | 1 => simp [h]
    | (m + 2) => simp [h]

/-- C1 witness: against `node0` (all receipts succeed with status 1) the
receipt of transaction 3 is returned as the success result. -/
theorem wait_for_successful_transaction_receipt_spec_witness :
    ({ status := some 1, transactionHash := 3 } : Receipt) = node0.receiptFor 3 ∧
      (node0.receiptFor 3).status = some 1 :=
  (wait_for_successful_transaction_receipt_spec node0 3).2.1
    { status := some 1, transactionHash := 3 } rfl

/-- The loop invariant of `wait_for_successful_transaction_receipts`:
when every receipt carries status 0 or 1, the loop terminates normally
and accumulates exactly the hashes whose receipts failed, on top of the
accumulator it started from. -/
theorem collect_failed_tx_hashs_ok (node : Node) :
    ∀ (l acc : List TxHash),
      (∀ h ∈ l, (node.receiptFor h).status = some 0 ∨
        (node.receiptFor h).status = some 1) →
      ∃ res, collect_failed_tx_hashs node l acc = .ok res ∧
        (∀ x, x ∈ res ↔ x ∈ acc ∨ (x ∈ l ∧ (node.receiptFor x).status = some 0))
  | [], acc => by
    intro _
    exact ⟨acc, rfl, by simp⟩
  | tx_hash :: rest, acc => by
    intro hterm
    rcases hterm tx_hash (by simp) with h0 | h1
    · have ih := collect_failed_tx_hashs_ok node rest
        (if tx_hash ∈ acc then acc else acc ++ [tx_hash])
        (fun h hm => hterm h (by simp [hm]))
      rcases ih with ⟨res, hres, hmem⟩
      refine ⟨res, ?_, ?_⟩
      · have hstep : collect_failed_tx_hashs node (tx_hash :: rest) acc =
            collect_failed_tx_hashs node rest
              (if tx_hash ∈ acc then acc else acc ++ [tx_hash]) := by
          conv_lhs => unfold collect_failed_tx_hashs
          simp only [h0]
        rw [hstep]
        exact hres
      · intro x
        rw [hmem x]
        by_cases hx : tx_hash ∈ acc
        · simp only [if_pos hx]
          constructor
          · rintro (hxa | ⟨hxr, hx0⟩)
            · exact Or.inl hxa
            · exact Or.inr ⟨by simp [hxr], hx0⟩
          · rintro (hxa | ⟨hxc, hx0⟩)
            · exact Or.inl hxa
            · rcases List.mem_cons.mp hxc with rfl | hxr
              · exact Or.inl hx
              · exact Or.inr ⟨hxr, hx0⟩
        · simp only [if_neg hx, List.mem_append, List.mem_singleton]
          constructor
          · rintro ((hxa | rfl) | ⟨hxr, hx0⟩)
            · exact Or.inl hxa
            · exact Or.inr ⟨by simp, h0⟩
            · exact Or.inr ⟨by simp [hxr], hx0⟩
          · rintro (hxa | ⟨hxc, hx0⟩)
            · exact Or.inl (Or.inl hxa)
            · rcases List.mem_cons.mp hxc with rfl | hxr
              · exact Or.inl (Or.inr rfl)
              · exact Or.inr ⟨hxr, hx0⟩
    · have ih := collect_failed_tx_hashs_ok node rest acc
        (fun h hm => hterm h (by simp [hm]))
      rcases ih with ⟨res, hres, hmem⟩
      refine ⟨res, ?_, ?_⟩
      · have hstep : collect_failed_tx_hashs node (tx_hash :: rest) acc =
            collect_failed_tx_hashs node rest acc := by
          conv_lhs => unfold collect_failed_tx_hashs
          simp only [h1]
        rw [hstep]
        exact hres
      · intro x
        rw [hmem x]
        constructor
        · rintro (hxa | ⟨hxr, hx0⟩)
          · exact Or.inl hxa
          · exact Or.inr ⟨by simp [hxr], hx0⟩
        · rintro (hxa | ⟨hxc, hx0⟩)
          · exact Or.inl hxa
          · rcases List.mem_cons.mp hxc with rfl | hxr
            · rw [hx0] at h1
              exact absurd h1 (by simp)
            · exact Or.inr ⟨hxr, hx0⟩

/-- C4: when every receipt of the given hashes carries status 0 or 1,
`wait_for_successful_transaction_receipts` returns normally exactly when
all receipts have status 1; otherwise it raises `TransactionsFailed`, and
whatever failed-hash collection that error carries holds exactly the
given hashes whose receipts have status 0. -/
theorem wait_for_successful_transaction_receipts_spec (node : Node)
    (tx_hashs : List TxHash)
    (hterm : ∀ h ∈ tx_hashs, (node.receiptFor h).status = some 0 ∨
      (node.receiptFor h).status = some 1) :
    (wait_for_successful_transaction_receipts node tx_hashs = .ok () ↔
      ∀ h ∈ tx_hashs, (node.receiptFor h).status = some 1) ∧
    (∀ failed_tx_hashs,
      wait_for_successful_transaction_receipts node tx_hashs =
        .error (.transactionsFailed failed_tx_hashs) →
      ∀ x, x ∈ failed_tx_hashs ↔
        x ∈ tx_hashs ∧ (node.receiptFor x).status = some 0) ∧
    ((¬ ∀ h ∈ tx_hashs, (node.receiptFor h).status = some 1) →
      ∃ failed_tx_hashs,
        wait_for_successful_transaction_receipts node tx_hashs =
          .error (.transactionsFailed failed_tx_hashs)) := by
  rcases collect_failed_tx_hashs_ok node tx_hashs [] hterm with ⟨res, hres, hmem⟩
  have hmem' : ∀ x, x ∈ res ↔ x ∈ tx_hashs ∧ (node.receiptFor x).status = some 0 := by
    intro x
    rw [hmem x]
    simp
  have hout : wait_for_successful_transaction_receipts node tx_hashs =
      if res.length ≠ 0 then .error (.transactionsFailed res) else .ok () := by
    unfold wait_for_successful_transaction_receipts
    rw [hres]
  have hresempty : res = [] ↔ ∀ h ∈ tx_hashs, (node.receiptFor h).status = some 1 := by
    constructor
    · intro hnil h hm
      rcases hterm h hm with h0 | h1
      · exact absurd ((hmem' h).mpr ⟨hm, h0⟩) (by simp [hnil])
      · exact h1
    · intro hall
      rcases hcase : res with _ | ⟨x, xs⟩
      · rfl
      · have hx := (hmem' x).mp (by simp [hcase])
        rw [hall x hx.1] at hx
        exact absurd hx.2 (by simp)
  refine ⟨?_, ?_, ?_⟩
  · rw [hout]
    by_cases hnil : res = []
    · rw [if_neg (by simp [hnil])]
      exact ⟨fun _ => hresempty.mp hnil, fun _ => rfl⟩
    · rw [if_pos (fun h => hnil (List.length_eq_zero.mp h))]
      exact iff_of_false (by simp) (fun hall => hnil (hresempty.mpr hall))
  · intro failed_tx_hashs hfail x
    rw [hout] at hfail
    by_cases hnil : res = []
    · rw [if_neg (by simp [hnil])] at hfail
      exact absurd hfail (by simp)
    · rw [if_pos (fun h => hnil (List.length_eq_zero.mp h))] at hfail
      simp only [Except.error.injEq, Err.transactionsFailed.injEq] at hfail
      rw [← hfail]
      exact hmem' x
  · intro hnotall
    refine ⟨res, ?_⟩
    rw [hout, if_pos ?_]
    intro hlen
    rw [List.length_eq_zero] at hlen
    exact hnotall (hresempty.mp hlen)

/-- C4 witness: against `nodeMixed` (status 0 for even hashes, 1 for odd
ones) the bulk wait on hashes 1, 2, 3, 4 raises `TransactionsFailed`
carrying exactly the even hashes. -/
theorem wait_for_successful_transaction_receipts_spec_witness :
    (2 ∈ ([2, 4] : List TxHash) ↔
      2 ∈ ([1, 2, 3, 4] : List TxHash) ∧
        (nodeMixed.receiptFor 2).status = some 0) :=
  (wait_for_successful_transaction_receipts_spec nodeMixed [1, 2, 3, 4]
      (by decide)).2.1 [2, 4] (by rfl) 2

/-- C2: with a private key whose derived address differs from an explicit
from-address, both `send_transaction` and `_build_and_sign_transaction`
raise the conflict `ValueError` with an empty network trace (no nonce
query, no send) and untouched options; when the explicit from-address
equals the derived one, no error is raised. -/
theorem private_key_from_conflict (derive : PrivKey → Address)
    (fd : TxOptions → TxOptions) (fc : FunctionCall) (node : Node)
    (opts : TxOptions) (k : PrivKey) (f : Address) (hf : opts.from_ = some f) :
    (f ≠ derive k →
      send_transaction derive fd node opts (some k) =
        (.error (.valueError
          "From can not be set in transaction_options if a private key is used"),
          opts, []) ∧
      _build_and_sign_transaction derive fc node opts k =
        (.error (.valueError
          "From can not be set in transaction_options if a private key is used"),
          opts, [])) ∧
    (f = derive k →
      (∃ h, (send_transaction derive fd node opts (some k)).1 = .ok h) ∧
      (∃ s, (_build_and_sign_transaction derive fc node opts k).1 = .ok s)) := by
  constructor
  · intro hne
    have hcf : conflicting_from opts (derive k) = true := by
      simp [conflicting_from, hf, hne]
    exact ⟨send_transaction_key_conflict derive fd node opts k hcf,
      build_and_sign_conflict derive fc node opts k hcf⟩
  · intro heq
    have hcf : conflicting_from opts (derive k) = false := by
      simp [conflicting_from, hf, heq]
    exact ⟨⟨_, by rw [send_transaction_key_ok derive fd node opts k hcf]⟩,
      ⟨_, by rw [build_and_sign_key_ok derive fc node opts k hcf]⟩⟩

/-- C2 witness: explicit from-address 2 against derived address 3 is
rejected by both signing paths, with untouched options and no network
call. -/
theorem private_key_from_conflict_witness :
    send_transaction (fun k => k) (fun t => t) node0 { from_ := some 2 } (some 3) =
      (.error (.valueError
        "From can not be set in transaction_options if a private key is used"),
        { from_ := some 2 }, []) ∧
    _build_and_sign_transaction (fun k => k) fc0 node0 { from_ := some 2 } 3 =
      (.error (.valueError
        "From can not be set in transaction_options if a private key is used"),
        { from_ := some 2 }, []) :=
  (private_key_from_conflict (fun k => k) (fun t => t) fc0 node0
    { from_ := some 2 } 3 2 rfl).1 (by decide)

/-- C5: whenever a transaction is signed locally (a private key is
supplied), every raw transaction submitted to the node was signed by the
derived account and carries exactly the derived address in its from-field;
this covers `send_transaction` and the function-call path through
`_build_and_sign_transaction`, given that web3's external default-filling
and transaction-building steps preserve the from-field. -/
theorem locally_signed_from_is_derived (derive : PrivKey → Address)
    (fd : TxOptions → TxOptions) (fc : FunctionCall) (node : Node)
    (opts : TxOptions) (k : PrivKey)
    (hfd : ∀ t, (fd t).from_ = t.from_)
    (hbt : ∀ t, (fc.buildTransaction t).from_ = t.from_) :
    (∀ st, RpcCall.sendRawTransaction st ∈
        (send_transaction derive fd node opts (some k)).2.2 →
      st.tx.from_ = some (derive k) ∧ st.signerAddress = derive k) ∧
    (∀ st, RpcCall.sendRawTransaction st ∈
        (send_function_call_transaction derive fc node (some opts) (some k)).2.2 →
      st.tx.from_ = some (derive k) ∧ st.signerAddress = derive k) := by
  cases hcf : conflicting_from opts (derive k) with
  | false =>
    constructor
    · intro st hmem
      rw [send_transaction_key_ok derive fd node opts k hcf] at hmem
      rcases List.mem_append.mp hmem with hq | hs
      · rcases fill_nonce_trace_only_query node _ _ hq with ⟨a, ha⟩
        simp at ha
      · have hst : st =
            ⟨derive k, fd (fill_nonce node { opts with from_ := some (derive k) }).1⟩ := by
          simpa using hs
        subst hst
        refine ⟨?_, rfl⟩
        rw [hfd, fill_nonce_fst_from]
    · intro st hmem
      rw [send_function_call_key_ok derive fc node opts k hcf] at hmem
      rcases List.mem_append.mp hmem with hq | hs
      · rcases fill_nonce_trace_only_query node _ _ hq with ⟨a, ha⟩
        simp at ha
      · have hst : st = ⟨derive k, (fill_nonce node
            (fc.buildTransaction { opts with from_ := some (derive k) })).1⟩ := by
          simpa using hs
        subst hst
        refine ⟨?_, rfl⟩
        rw [fill_nonce_fst_from, hbt]
    | true =>
    constructor
    · intro st hmem
      rw [send_transaction_key_conflict derive fd node opts k hcf] at hmem
      simp at hmem
    · intro st hmem
      rw [send_function_call_key_conflict derive fc node opts k hcf] at hmem
      simp at hmem

/-- C5 witness: a concrete locally-signed run (derived address 9) whose
submitted raw transaction carries from-address 9. -/
theorem locally_signed_from_is_derived_witness :
    ({ from_ := some 9, nonce := some 7 } : TxOptions).from_ = some 9 ∧
      (9 : Address) = 9 :=
  (locally_signed_from_is_derived (fun k => k) (fun t => t) fc0 node0 {} 9
      (fun _ => rfl) (fun _ => rfl)).1
    ⟨9, { from_ := some 9, nonce := some 7 }⟩ (by decide)

/-- C9: without a private key, an absent from-address is filled with the
node's default account when that is set, else with the first account of
the node's account list; a present from-address is untouched; and both
`send_transaction` and `send_function_call_transaction` end up submitting
options carrying the from-address `_set_from_address` chose. -/
theorem set_from_address_spec (derive : PrivKey → Address)
    (fd : TxOptions → TxOptions) (fc : FunctionCall) (node : Node)
    (opts : TxOptions) :
    (∀ a, opts.from_ = none → node.defaultAccount = some a →
      _set_from_address node opts = .ok { opts with from_ := some a }) ∧
    (∀ a rest, opts.from_ = none → node.defaultAccount = none →
      node.accounts = a :: rest →
      _set_from_address node opts = .ok { opts with from_ := some a }) ∧
    (∀ f, opts.from_ = some f → _set_from_address node opts = .ok opts) ∧
    (∀ res, _set_from_address node opts = .ok res →
      (send_transaction derive fd node opts none).2.1 = res ∧
      (send_function_call_transaction derive fc node (some opts) none).2.1.from_ =
        res.from_) := by
  refine ⟨?_, ?_, ?_, ?_⟩
  · intro a h1 h2
    unfold _set_from_address
    rw [h1, h2]
  · intro a rest h1 h2 h3
    unfold _set_from_address
    rw [h1, h2, h3]
  · intro f h1
    unfold _set_from_address
    rw [h1]
  · intro res h
    constructor
    · rw [send_transaction_no_key derive fd node opts, h]
    · rw [send_function_call_no_key derive fc node opts, h]
      exact fill_nonce_fst_from node res

/-- C9 witness: with no explicit from-address, `node0`'s default account 5
is chosen. -/
theorem set_from_address_spec_witness :
    _set_from_address node0 {} = .ok { from_ := some 5 } :=
  (set_from_address_spec (fun k => k) (fun t => t) fc0 node0 {}).1 5 rfl rfl

/-- C3 counterexample: in `send_transaction` without a private key the
from-address is known (explicitly 1) and no nonce was given, yet the code
makes no pending-count query at all — the only network call is the node
submission and the nonce is still absent afterwards — contradicting the
claim that a single nonce query happens exactly when `from` is known and
no explicit nonce was given on every submission path. -/
theorem send_transaction_no_key_skips_nonce_query :
    ({ from_ := some 1 } : TxOptions).from_ = some 1 ∧
    ({ from_ := some 1 } : TxOptions).nonce = none ∧
    (send_transaction (fun k => k) (fun t => t) node0
        { from_ := some 1 } none).2.2 =
      [RpcCall.sendTransaction { from_ := some 1 }] ∧
    nonce_query_count
        (send_transaction (fun k => k) (fun t => t) node0
          { from_ := some 1 } none).2.2 = 0 ∧
    (send_transaction (fun k => k) (fun t => t) node0
        { from_ := some 1 } none).2.1.nonce = none := by
  refine ⟨rfl, rfl, rfl, rfl, rfl⟩

/-- C3 (amended): the nonce is filled by a single pending-count query
exactly when the from-address is known and no explicit nonce was given —
but only on the paths that fill nonces: `send_transaction` with a private
key and `send_function_call_transaction` with or without one; an explicit
nonce is always preserved.  `send_transaction` without a private key never
queries the nonce: it hands the options to the node unchanged.  The
external `buildTransaction` is assumed to preserve the from and nonce
fields, as web3's does. -/
theorem nonce_query_discipline (derive : PrivKey → Address)
    (fd : TxOptions → TxOptions) (fc : FunctionCall) (node : Node)
    (opts : TxOptions) (k : PrivKey)
    (hbt_from : ∀ t, (fc.buildTransaction t).from_ = t.from_)
    (hbt_nonce : ∀ t, (fc.buildTransaction t).nonce = t.nonce) :
    (conflicting_from opts (derive k) = false →
      nonce_query_count (send_transaction derive fd node opts (some k)).2.2 =
        (if opts.nonce = none then 1 else 0) ∧
      (∀ n, opts.nonce = some n →
        (send_transaction derive fd node opts (some k)).2.1.nonce = some n)) ∧
    nonce_query_count (send_transaction derive fd node opts none).2.2 = 0 ∧
    (conflicting_from opts (derive k) = false →
      nonce_query_count
          (send_function_call_transaction derive fc node (some opts) (some k)).2.2 =
        (if opts.nonce = none then 1 else 0)) ∧
    (∀ res, _set_from_address node opts = .ok res →
      nonce_query_count
          (send_function_call_transaction derive fc node (some opts) none).2.2 =
        (if opts.nonce = none then 1 else 0) ∧
      (∀ n, opts.nonce = some n →
        (send_function_call_transaction derive fc node
          (some opts) none).2.1.nonce = some n)) := by
  refine ⟨?_, ?_, ?_, ?_⟩
  · intro hcf
    rw [send_transaction_key_ok derive fd node opts k hcf]
    constructor
    · rw [nonce_query_count_append, nonce_query_count_sendRaw,
        fill_nonce_query_count]
      simp
    · intro n hn
      exact fill_nonce_fst_nonce node _ n hn
  · rw [send_transaction_no_key derive fd node opts]
    rcases h : _set_from_address node opts with e | res
    · rfl
    · rfl
  · intro hcf
    rw [send_function_call_key_ok derive fc node opts k hcf]
    rw [nonce_query_count_append, nonce_query_count_sendRaw,
      fill_nonce_query_count, hbt_from, hbt_nonce]
    simp
  · intro res h
    rw [send_function_call_no_key derive fc node opts, h]
    rcases set_from_address_ok_shape node opts res h with
      ⟨hsome, _, _, _, hn, _⟩
    constructor
    · show nonce_query_count ((fill_nonce node res).2 ++
        [RpcCall.transactCall (fill_nonce node res).1]) = _
      rw [nonce_query_count_append, nonce_query_count_transactCall,
        fill_nonce_query_count]
      simp [hsome, hn]
    · intro n hnn
      show (fill_nonce node res).1.nonce = some n
      exact fill_nonce_fst_nonce node res n (by rw [hn, hnn])

/-- C3 witness for the amended claim: a concrete locally-signed run with
no explicit nonce makes exactly one pending-count query. -/
theorem nonce_query_discipline_witness :
    nonce_query_count
        (send_transaction (fun k => k) (fun t => t) node0 {} (some 9)).2.2 =
      (if ({} : TxOptions).nonce = none then 1 else 0) :=
  ((nonce_query_discipline (fun k => k) (fun t => t) fc0 node0 {} 9
      (fun _ => rfl) (fun _ => rfl)).1 rfl).1

/-- C8: `parse_arg_to_matching_type` on type `bool` accepts exactly the
case-insensitive spellings of true and false and raises a `ValueError` on
every other argument; and on a type string matching none of the
recognized patterns it raises a `ValueError` instead of returning a
value. -/
theorem parse_arg_bool_and_unknown (toChecksumAddress : String → Except Err String)
    (arg type : String) :
    (parse_arg_to_matching_type toChecksumAddress arg "bool" =
        .ok (AbiValue.boolVal true) ↔ arg.toLower = "true") ∧
    (parse_arg_to_matching_type toChecksumAddress arg "bool" =
        .ok (AbiValue.boolVal false) ↔ arg.toLower = "false") ∧
    (arg.toLower ≠ "true" → arg.toLower ≠ "false" →
      parse_arg_to_matching_type toChecksumAddress arg "bool" =
        .error (.valueError ("Expected true or false, but got " ++ arg))) ∧
    (matches_int_pattern type = false → matches_int_array_pattern type = false →
      matches_bool_pattern type = false → matches_bool_array_pattern type = false →
      matches_address_pattern type = false →
      matches_address_array_pattern type = false →
      matches_bytes_pattern type = false → matches_string_pattern type = false →
      parse_arg_to_matching_type toChecksumAddress arg type =
        .error (.valueError
          ("Cannot handle parameter of type " ++ type ++ " yet."))) := by
  have hbool : parse_arg_to_matching_type toChecksumAddress arg "bool" =
      (parse_bool_arg arg).map AbiValue.boolVal := by
    unfold parse_arg_to_matching_type
    rw [show matches_int_pattern "bool" = false from by decide,
      show matches_int_array_pattern "bool" = false from by decide,
      show matches_bool_pattern "bool" = true from by decide]
    rfl
  refine ⟨?_, ?_, ?_, ?_⟩
  · rw [hbool]
    unfold parse_bool_arg
    by_cases ht : arg.toLower = "true"
    · simp [ht, Except.map]
    · by_cases hf : arg.toLower = "false" <;> simp [ht, hf, Except.map]
  · rw [hbool]
    unfold parse_bool_arg
    by_cases ht : arg.toLower = "true"
    · simp [ht, Except.map]
    · by_cases hf : arg.toLower = "false" <;> simp [ht, hf, Except.map]
  · intro ht hf
    rw [hbool]
    unfold parse_bool_arg
    simp [ht, hf, Except.map]
  · intro h1 h2 h3 h4 h5 h6 h7 h8
    unfold parse_arg_to_matching_type
    rw [h1, h2, h3, h4, h5, h6, h7, h8]
    rfl

/-- C8 witness: the unrecognized type `float` is rejected with the
cannot-handle `ValueError`. -/
theorem parse_arg_bool_and_unknown_witness :
    parse_arg_to_matching_type (fun s => .ok s) "x" "float" =
      .error (.valueError
        ("Cannot handle parameter of type " ++ "float" ++ " yet.")) :=
  (parse_arg_bool_and_unknown (fun s => .ok s) "x" "float").2.2.2
    (by decide) (by decide) (by decide) (by decide) (by decide) (by decide)
    (by decide) (by decide)

end DeployTools
